import Mathlib

/-!
Verification development for the AI-DJ repository.

The verified core is the `search_mp3_files` routine of `tools.py`
(query parsing, directory scan, loose matching, relevance ranking,
metadata extraction, report rendering) together with the near-duplicate
manifest-writing variant in `main.py`.  Python strings are modelled as
`List Char`; filesystem state, the ID3 tag reader and the wall clock are
explicit parameters.
-/

namespace AIDJ

/-- Model of Python strings: a list of characters. -/
abbrev Str := List Char

/-- The ASCII characters treated as whitespace by Python's
`str.strip()` / `str.split()`. -/
def isPySpace (c : Char) : Bool :=
  c == ' ' || c == '\t' || c == '\n' || c == '\r' || c == '\x0b' || c == '\x0c'

/-- Python `s.strip()`. -/
def pyStrip (s : Str) : Str :=
  ((s.dropWhile isPySpace).reverse.dropWhile isPySpace).reverse

/-- A quote character, as in Python `s.strip("'\"")`. -/
def isQuote (c : Char) : Bool := c == '\'' || c == '"'

/-- Python `s.strip("'\"")`, used on the tool-wrapper argument
(tools.py line 39). -/
def stripQuotes (s : Str) : Str :=
  ((s.dropWhile isQuote).reverse.dropWhile isQuote).reverse

/-- Python `s.lower()` (ASCII fragment). -/
def lower (s : Str) : Str := s.map Char.toLower

/-- Python `pat in s`: contiguous-substring test. -/
def isSubstr (pat : Str) : Str → Bool
  | [] => pat.isEmpty
  | c :: t => pat.isPrefixOf (c :: t) || isSubstr pat t

/-- Python `s.find(c)`: index of the first occurrence, `-1` when absent. -/
def pyFind (c : Char) (s : Str) : Int :=
  if c ∈ s then (s.indexOf c : Int) else -1

/-- Python `s.rfind(c)`: index of the last occurrence, `-1` when absent. -/
def pyRFind (c : Char) (s : Str) : Int :=
  if c ∈ s then (s.length : Int) - 1 - (s.reverse.indexOf c : Int) else -1

/-- Python decimal rendering of a natural number, `str(n)`. -/
def natStr (n : Nat) : Str := (Nat.repr n).data

/-- A wall-clock time at whole-second precision (the data consumed by
`datetime.now().strftime('%Y%m%d_%H%M%S')`). -/
structure Timestamp where
  year : Nat
  month : Nat
  day : Nat
  hour : Nat
  minute : Nat
  second : Nat

/-- Zero-pad a numeral to `w` digits, as `strftime` does. -/
def padNum (w : Nat) (n : Nat) : Str :=
  List.replicate (w - (natStr n).length) '0' ++ natStr n

/-- `datetime.now().strftime('%Y%m%d_%H%M%S')` (tools.py line 31,
main.py line 120). -/
def fmtTimestamp (t : Timestamp) : Str :=
  padNum 4 t.year ++ padNum 2 t.month ++ padNum 2 t.day ++ "_".data ++
  padNum 2 t.hour ++ padNum 2 t.minute ++ padNum 2 t.second

/-- The parsed form of a query: extracted search terms and playlist label. -/
structure ParsedRequest where
  searchTerms : Str
  playlistLabel : Str
deriving DecidableEq, Repr

/-- tools.py lines 33-39: strip a `MP3Search(...)` wrapper.  The code
requires the literal substring `MP3Search(` (and some `)`), then slices
between the first `(` and the last `)` and trims quote characters. -/
def stripToolWrapper (query : Str) : Str :=
  if isSubstr "MP3Search(".data query && isSubstr ")".data query then
    let startIdx : Int := pyFind '(' query + 1
    let endIdx : Int := pyRFind ')' query
    if startIdx > 0 && endIdx > startIdx then
      stripQuotes ((query.take endIdx.toNat).drop startIdx.toNat)
    else query
  else query

/-- tools.py lines 44-53: one iteration of the segment loop.  The state is
the pair (search terms so far, playlist label so far); `query` is the
(wrapper-stripped) full query, consulted by the bare-segment branch. -/
def parseSegment (query : Str) (st : Str × Str) (part0 : Str) : Str × Str :=
  let part := pyStrip part0
  if "search:".data.isPrefixOf (lower part) then
    (pyStrip (part.drop 7), st.2)
  else if "playlist:".data.isPrefixOf (lower part) then
    (st.1, pyStrip (part.drop 9))
  else if !isSubstr "playlist:".data query && !isSubstr "search:".data part then
    (if st.1.isEmpty then (part, st.2) else st)
  else st

/-- tools.py lines 27-60: the query parser of `search_mp3_files`. -/
def parseQuery (now : Timestamp) (query0 : Str) : ParsedRequest :=
  let defaultLabel := "Playlist_".data ++ fmtTimestamp now
  let query := stripToolWrapper query0
  let sp :=
    if isSubstr "|".data query then
      (query.splitOn '|').foldl (parseSegment query) (([] : Str), defaultLabel)
    else
      (pyStrip query, defaultLabel)
  let st := if "search:".data.isPrefixOf (lower sp.1) then pyStrip (sp.1.drop 7) else sp.1
  { searchTerms := st, playlistLabel := sp.2 }

/-- A filesystem state for the search root: whether the root path exists,
whether it is a directory, and the files beneath it in the recursive
scan's discovery order (absolute paths). -/
structure FS where
  rootExists : Bool
  rootIsDir : Bool
  files : List Str

/-- `os.path.basename`: the component after the last `/`. -/
def basename (p : Str) : Str := (p.splitOn '/').getLastD []

/-- Glob pattern matching for the patterns this program builds:
`*` matches any run (equivalently: the rest of the pattern matches some
suffix), `?` any one character, other characters are literal (the built
patterns contain no character classes). -/
def globMatch : Str → Str → Bool
  | [], s => s.isEmpty
  | '*' :: ps, s => s.tails.any (fun t => globMatch ps t)
  | p :: ps, s =>
    match s with
    | [] => false
    | c :: t => (p == '?' || p == c) && globMatch ps t

/-- `glob.glob(os.path.join(root, "**", pat), recursive=True)`: the files
under the root whose basename matches the pattern, in discovery order;
empty when the root is not a directory. -/
def globFiles (fs : FS) (pat : Str) : List Str :=
  if fs.rootIsDir then fs.files.filter (fun p => globMatch pat (basename p)) else []

/-- tools.py line 74: the lower-cased, whitespace-split search words. -/
def searchWords (terms : Str) : List Str :=
  ((terms.splitOnP isPySpace).filter (fun w => !w.isEmpty)).map lower

/-- tools.py lines 85-88: number of search words occurring in the
lower-cased file name (list duplicates counted as in the Python `sum`). -/
def relevanceScore (ws : List Str) (p : Str) : Nat :=
  (ws.filter (fun w => isSubstr w (lower (basename p)))).length

/-- tools.py lines 77-82: keep the files whose lower-cased name contains
at least one of the search words. -/
def matchingFiles (ws : List Str) (files : List Str) : List Str :=
  files.filter (fun p => ws.any (fun w => isSubstr w (lower (basename p))))

/-- Stable insertion into a descending-sorted list: `x` goes after every
element with a strictly greater key and before the equal-keyed elements
met later — exactly the tie behavior of a stable sort. -/
def insertDesc (key : Str → Nat) (x : Str) : List Str → List Str
  | [] => [x]
  | y :: t => if key x < key y then y :: insertDesc key x t else x :: y :: t

/-- The stable descending sort of Python's
`mp3_files.sort(key=relevance_score, reverse=True)` (tools.py line 90):
order by key descending, equal keys keeping their original (discovery)
order.  That reordering is uniquely determined; stable insertion
computes it. -/
def sortDesc (key : Str → Nat) : List Str → List Str
  | [] => []
  | x :: t => insertDesc key x (sortDesc key t)

/-- tools.py lines 73-90: filter, then stable-sort by relevance
descending. -/
def rankedFiles (terms : Str) (files : List Str) : List Str :=
  let ws := searchWords terms
  sortDesc (relevanceScore ws) (matchingFiles ws files)

/-- tools.py lines 69-93: the selected files, including the cap of 20. -/
def selectFiles (terms : Str) (allMp3 : List Str) : List Str :=
  (if terms.isEmpty then allMp3.take 20 else rankedFiles terms allMp3).take 20

/-- The two ID3 frames the program reads: the first text value of `TBPM`
and of `TCON`, each `none` when the frame is absent. -/
structure Tags where
  tbpm : Option Str
  tcon : Option Str

/-- The ID3 reader; `none` models `ID3(path)` raising an exception. -/
abbrev TagReader := Str → Option Tags

/-- tools.py lines 105-122 (also main.py lines 152-169): BPM and genre
extraction with fallback to the sentinel `"Unknown"`. -/
def entryMeta (readTag : TagReader) (p : Str) : Str × Str :=
  match readTag p with
  | none => ("Unknown".data, "Unknown".data)
  | some t => (t.tbpm.getD "Unknown".data, t.tcon.getD "Unknown".data)

/-- The newline character as a one-character string. -/
def nl : Str := ['\n']

/-- tools.py lines 97-100: the header line (without its trailing blank
line). -/
def headerLine (terms : Str) (n : Nat) : Str :=
  if !terms.isEmpty then
    "🔍 Found ".data ++ natStr n ++ " MP3 files matching '".data ++ terms ++ "':".data
  else
    "🔍 Found ".data ++ natStr n ++ " MP3 files:".data

/-- tools.py lines 102-103 and 129-131: a 1-based numbered file-name line. -/
def numLine (i : Nat) (p : Str) : Str := natStr i ++ ". ".data ++ basename p

/-- tools.py line 124: the per-track metadata line. -/
def metaLine (readTag : TagReader) (p : Str) : Str :=
  "   BPM: ".data ++ (entryMeta readTag p).1 ++ " | Genre: ".data ++ (entryMeta readTag p).2

/-- tools.py lines 128 and 132: the 40-dash separator line. -/
def sepLine : Str := List.replicate 40 '-'

/-- tools.py line 127: the playlist-summary line. -/
def playlistLine (label : Str) (n : Nat) : Str :=
  "📋 Playlist: ".data ++ label ++ " (".data ++ natStr n ++ " tracks)".data

/-- tools.py lines 96-132: the report for a non-empty result list, as the
exact response string built by the `+=` chain. -/
def renderResults (readTag : TagReader) (terms label : Str) (files : List Str) : Str :=
  headerLine terms files.length ++ nl ++ nl
  ++ (List.enumFrom 1 files).flatMap
      (fun ip => numLine ip.1 ip.2 ++ nl ++ metaLine readTag ip.2 ++ nl)
  ++ nl ++ playlistLine label files.length ++ nl ++ sepLine ++ nl
  ++ (List.enumFrom 1 files).flatMap (fun ip => numLine ip.1 ip.2 ++ nl)
  ++ sepLine

/-- The same report, decomposed into its lines (joined by `\n` it is
exactly `renderResults`, see `renderResults_eq_intercalate`). -/
def reportLines (readTag : TagReader) (terms label : Str) (files : List Str) : List Str :=
  [headerLine terms files.length, []]
  ++ (List.enumFrom 1 files).flatMap (fun ip => [numLine ip.1 ip.2, metaLine readTag ip.2])
  ++ [[], playlistLine label files.length, sepLine]
  ++ (List.enumFrom 1 files).map (fun ip => numLine ip.1 ip.2)
  ++ [sepLine]

/-- tools.py lines 133-135: the empty-result message. -/
def noResultsMsg (terms : Str) : Str :=
  "❌ No MP3 files found matching '".data ++ terms ++ "'.".data ++ nl
  ++ "Try different search terms or check if the Desktop folder contains MP3 files.".data

/-- tools.py line 64: the missing-directory message. -/
def notFoundMsg (musicDir : Str) : Str :=
  "❌ Desktop directory not found at ".data ++ musicDir
  ++ ". Please check the path or create the directory.".data

/-- A filesystem write performed by a search call (path and content). -/
structure WriteOp where
  path : Str
  content : Str
deriving DecidableEq

/-- tools.py lines 7-137: the whole tool.  `musicDir` models
`os.path.expanduser("~/Desktop")`, `now` the wall clock, `readTag` the
ID3 library.  The routine only builds a string; it performs no
filesystem write (see `search_mp3_files_writes`). -/
def search_mp3_files (musicDir : Str) (now : Timestamp) (fs : FS)
    (readTag : TagReader) (query : Str) : Str :=
  let req := parseQuery now query
  if !fs.rootExists then notFoundMsg musicDir
  else
    let files := selectFiles req.searchTerms (globFiles fs "*.mp3".data)
    if !files.isEmpty then renderResults readTag req.searchTerms req.playlistLabel files
    else noResultsMsg req.searchTerms

/-- The effect log of tools.py's `search_mp3_files`: the body contains no
file-creating call (line 126: the playlist listing is added to the
response *instead of creating a file*), so the log is empty by
construction. -/
def search_mp3_files_writes (_musicDir : Str) (_now : Timestamp) (_fs : FS)
    (_readTag : TagReader) (_query : Str) : List WriteOp := []

/-- The report of `search_mp3_files` as its list of lines. -/
def searchReportLines (musicDir : Str) (now : Timestamp) (fs : FS)
    (readTag : TagReader) (query : Str) : List Str :=
  let req := parseQuery now query
  if !fs.rootExists then [notFoundMsg musicDir]
  else
    let files := selectFiles req.searchTerms (globFiles fs "*.mp3".data)
    if !files.isEmpty then reportLines readTag req.searchTerms req.playlistLabel files
    else ["❌ No MP3 files found matching '".data ++ req.searchTerms ++ "'.".data,
          "Try different search terms or check if the Desktop folder contains MP3 files.".data]

namespace MainVariant

/-- main.py lines 124-129: one iteration of the segment loop (this
variant has no bare-segment branch). -/
def parseSegment (st : Str × Str) (part0 : Str) : Str × Str :=
  let part := pyStrip part0
  if "search:".data.isPrefixOf (lower part) then (pyStrip (part.drop 7), st.2)
  else if "playlist:".data.isPrefixOf (lower part) then (st.1, pyStrip (part.drop 9))
  else st

/-- main.py lines 118-132: the query parser of this variant (no wrapper
stripping, no trailing `search:` strip). -/
def parseQuery (now : Timestamp) (query : Str) : ParsedRequest :=
  let defaultLabel := "Playlist_".data ++ fmtTimestamp now
  if isSubstr "|".data query then
    let sp := (query.splitOn '|').foldl parseSegment (([] : Str), defaultLabel)
    { searchTerms := sp.1, playlistLabel := sp.2 }
  else { searchTerms := pyStrip query, playlistLabel := defaultLabel }

/-- main.py line 139: the glob pattern
`f"*{search_terms.replace(' ', '*')}*.mp3"`. -/
def searchPattern (terms : Str) : Str :=
  '*' :: ((terms.map fun c => if c == ' ' then '*' else c) ++ "*.mp3".data)

/-- main.py lines 176-179: the M3U manifest content. -/
def manifest (files : List Str) : Str :=
  "#EXTM3U".data ++ nl ++ files.flatMap (fun p => p ++ nl)

/-- main.py lines 102-187: the manifest-writing variant.  `musicDir`
models `os.path.expanduser("~/Music")`; `writeErr = some e` models the
playlist-file write raising with message `e`.  Returns the response
string and the list of filesystem writes performed. -/
def search_mp3_files (musicDir : Str) (now : Timestamp) (fs : FS)
    (readTag : TagReader) (writeErr : Option Str) (query : Str) :
    Str × List WriteOp :=
  let req := parseQuery now query
  if !fs.rootExists then
    ("❌ Music directory not found at ".data ++ musicDir
      ++ ". Please check the path or create the directory.".data, [])
  else
    let files := (globFiles fs (searchPattern req.searchTerms)).take 20
    if !files.isEmpty then
      let body := "🔍 Found ".data ++ natStr files.length
        ++ " MP3 files matching '".data ++ req.searchTerms ++ "':".data ++ nl ++ nl
        ++ (List.enumFrom 1 files).flatMap
            (fun ip => numLine ip.1 ip.2 ++ nl ++ metaLine readTag ip.2 ++ nl)
      let plPath := musicDir ++ "/".data ++ req.playlistLabel ++ ".m3u".data
      match writeErr with
      | none =>
        (body ++ nl ++ "✅ Created playlist '".data ++ req.playlistLabel
          ++ ".m3u' with ".data ++ natStr files.length ++ " tracks.".data,
         [⟨plPath, manifest files⟩])
      | some e =>
        (body ++ nl ++ "❌ Failed to create playlist file: ".data ++ e, [])
    else
      ("❌ No MP3 files found matching '".data ++ req.searchTerms ++ "'.".data ++ nl
        ++ "Try different search terms or check if the music directory contains MP3 files.".data,
       [])

end MainVariant

/-! ## The response string is the newline-join of the report lines -/

theorem intercalate_singleton (sep a : Str) : List.intercalate sep [a] = a := by
  simp [List.intercalate]

theorem intercalate_cons_of_ne_nil (sep a : Str) (l : List Str) (h : l ≠ []) :
    List.intercalate sep (a :: l) = a ++ sep ++ List.intercalate sep l := by
  cases l with
  | nil => exact absurd rfl h
  | cons b t => simp [List.intercalate, List.append_assoc]

theorem intercalate_flat_pairs (f g : Nat × Str → Str) :
    ∀ (l : List (Nat × Str)) (rest : List Str), rest ≠ [] →
      List.intercalate nl (l.flatMap (fun ip => [f ip, g ip]) ++ rest)
        = l.flatMap (fun ip => f ip ++ nl ++ g ip ++ nl) ++ List.intercalate nl rest
  | [], rest, _ => by simp
  | a :: t, rest, h => by
    have h2 : t.flatMap (fun ip => [f ip, g ip]) ++ rest ≠ [] := by
      intro hcon
      exact h (List.append_eq_nil.mp hcon).2
    rw [List.flatMap_cons]
    show List.intercalate nl (f a :: g a :: (t.flatMap _ ++ rest)) = _
    rw [intercalate_cons_of_ne_nil nl (f a) _ (by simp),
      intercalate_cons_of_ne_nil nl (g a) _ h2,
      intercalate_flat_pairs f g t rest h, List.flatMap_cons]
    simp [List.append_assoc]

theorem intercalate_map_lines (f : Nat × Str → Str) :
    ∀ (l : List (Nat × Str)) (rest : List Str), rest ≠ [] →
      List.intercalate nl (l.map f ++ rest)
        = l.flatMap (fun ip => f ip ++ nl) ++ List.intercalate nl rest
  | [], rest, _ => by simp
  | a :: t, rest, h => by
    have h2 : t.map f ++ rest ≠ [] := by
      intro hcon
      exact h (List.append_eq_nil.mp hcon).2
    rw [List.map_cons, List.cons_append,
      intercalate_cons_of_ne_nil nl (f a) _ h2,
      intercalate_map_lines f t rest h, List.flatMap_cons]
    simp [List.append_assoc]

/-- The response string built by the `+=` chain is exactly the
newline-join of `reportLines`. -/
theorem renderResults_eq_intercalate (readTag : TagReader) (terms label : Str)
    (files : List Str) :
    renderResults readTag terms label files
      = List.intercalate nl (reportLines readTag terms label files) := by
  unfold renderResults reportLines
  rw [show ([headerLine terms files.length, []] : List Str)
        ++ (List.enumFrom 1 files).flatMap
            (fun ip => [numLine ip.1 ip.2, metaLine readTag ip.2])
        ++ [[], playlistLine label files.length, sepLine]
        ++ (List.enumFrom 1 files).map (fun ip => numLine ip.1 ip.2) ++ [sepLine]
      = headerLine terms files.length :: [] ::
        ((List.enumFrom 1 files).flatMap
            (fun ip => [numLine ip.1 ip.2, metaLine readTag ip.2])
          ++ ([] :: playlistLine label files.length :: sepLine ::
            ((List.enumFrom 1 files).map (fun ip => numLine ip.1 ip.2) ++ [sepLine])))
      from by simp [List.append_assoc]]
  rw [intercalate_cons_of_ne_nil nl _ _ (by simp),
    intercalate_cons_of_ne_nil nl _ _ (by
      intro hcon
      exact absurd (List.append_eq_nil.mp hcon).2 (by simp)),
    intercalate_flat_pairs _ _ _ _ (by simp),
    intercalate_cons_of_ne_nil nl _ _ (by simp),
    intercalate_cons_of_ne_nil nl _ _ (by simp),
    intercalate_cons_of_ne_nil nl _ _ (by
      intro hcon
      exact absurd (List.append_eq_nil.mp hcon).2 (by simp)),
    intercalate_map_lines _ _ _ (by simp),
    intercalate_singleton]
  simp [List.append_assoc]

/-- The full tool output is the newline-join of `searchReportLines`. -/
theorem search_eq_intercalate (musicDir : Str) (now : Timestamp) (fs : FS)
    (readTag : TagReader) (query : Str) :
    search_mp3_files musicDir now fs readTag query
      = List.intercalate nl (searchReportLines musicDir now fs readTag query) := by
  unfold search_mp3_files searchReportLines
  dsimp only
  split
  · rw [intercalate_singleton]
  · split
    · exact renderResults_eq_intercalate _ _ _ _
    · rw [intercalate_cons_of_ne_nil nl _ _ (by simp), intercalate_singleton]
      simp [noResultsMsg, List.append_assoc]

/-! ## General helper lemmas -/

/-- A fixed concrete clock value used by the concrete evaluations. -/
def tNow : Timestamp := ⟨2025, 10, 12, 3, 4, 5⟩

theorem toDigitsCore_ten_ne_nil :
    ∀ (fuel n : Nat) (ds : List Char), Nat.toDigitsCore 10 (fuel + 1) n ds ≠ [] := by
  intro fuel
  induction fuel with
  | zero =>
    intro n ds
    simp only [Nat.toDigitsCore]
    split <;> simp [Nat.toDigitsCore]
  | succ f ih =>
    intro n ds
    simp only [Nat.toDigitsCore]
    split
    · simp
    · exact ih _ _

theorem toDigitsCore_ten_digits :
    ∀ (fuel n : Nat) (ds : List Char), (∀ c ∈ ds, Char.isDigit c = true) →
      ∀ c ∈ Nat.toDigitsCore 10 fuel n ds, Char.isDigit c = true := by
  have hdig : ∀ m, m < 10 → (Nat.digitChar m).isDigit = true := by decide
  intro fuel
  induction fuel with
  | zero => intro n ds h; simpa [Nat.toDigitsCore] using h
  | succ f ih =>
    intro n ds h c hc
    simp only [Nat.toDigitsCore] at hc
    have hmem : ∀ x ∈ Nat.digitChar (n % 10) :: ds, Char.isDigit x = true := by
      intro x hx
      rcases List.mem_cons.mp hx with rfl | hx
      · exact hdig _ (Nat.mod_lt _ (by decide))
      · exact h x hx
    split at hc
    · exact hmem c hc
    · exact ih _ _ hmem c hc

theorem natStr_eq_toDigits (n : Nat) : natStr n = Nat.toDigits 10 n := rfl

theorem natStr_ne_nil (n : Nat) : natStr n ≠ [] := by
  rw [natStr_eq_toDigits]
  exact toDigitsCore_ten_ne_nil n n []

theorem natStr_digits (n : Nat) : ∀ c ∈ natStr n, Char.isDigit c = true := by
  rw [natStr_eq_toDigits]
  exact toDigitsCore_ten_digits (n + 1) n [] (by simp)

/-- The predicate recognizing a per-track metadata line of the report. -/
def isBpmLine (l : Str) : Bool := "   BPM: ".data.isPrefixOf l

/-- The metadata-line marker never begins a numbered line: numbered lines
start with a decimal digit, not a space. -/
theorem bpm_marker_not_prefix_numLine (i : Nat) (p : Str) :
    isBpmLine (numLine i p) = false := by
  rcases hn : natStr i with _ | ⟨c, cs⟩
  · exact absurd hn (natStr_ne_nil i)
  · have hc : Char.isDigit c = true := by
      have := natStr_digits i
      rw [hn] at this
      exact this c (by simp)
    have hne : (' ' == c) = false := by
      rcases Bool.eq_false_or_eq_true (' ' == c) with h | h
      · have : ' ' = c := by simpa using h
        subst this
        simp [Char.isDigit] at hc
      · exact h
    show List.isPrefixOf (' ' :: "  BPM: ".data) (numLine i p) = false
    have : numLine i p = c :: (cs ++ ". ".data ++ basename p) := by
      simp [numLine, hn]
    rw [this, List.isPrefixOf_cons₂, hne, Bool.false_and]

/-- The metadata line always carries its marker. -/
theorem bpm_marker_prefix_metaLine (readTag : TagReader) (p : Str) :
    isBpmLine (metaLine readTag p) = true := by
  show List.isPrefixOf "   BPM: ".data ("   BPM: ".data ++ _) = true
  simp

/-- Counting metadata lines over the flattened two-line track blocks. -/
theorem countP_bpm_flat (readTag : TagReader) (l : List (Nat × Str)) :
    ((l.flatMap fun ip => [numLine ip.1 ip.2, metaLine readTag ip.2]).countP isBpmLine)
      = l.length := by
  induction l with
  | nil => rfl
  | cons a t ih =>
    simp [List.flatMap_cons, List.countP_append, ih, List.countP_cons,
      bpm_marker_not_prefix_numLine, bpm_marker_prefix_metaLine]

/-- The playlist re-listing contributes no metadata lines. -/
theorem countP_bpm_numMap (l : List (Nat × Str)) :
    ((List.map (fun ip => numLine ip.1 ip.2) l).countP isBpmLine) = 0 := by
  induction l with
  | nil => rfl
  | cons a t ih => simp [List.countP_cons, ih, bpm_marker_not_prefix_numLine]

/-- In a rendered non-empty report there is exactly one metadata line per
selected entry. -/
theorem countP_bpm_reportLines (readTag : TagReader) (terms label : Str)
    (files : List Str) :
    (reportLines readTag terms label files).countP isBpmLine = files.length := by
  have hhead : isBpmLine (headerLine terms files.length) = false := by
    unfold isBpmLine headerLine
    split <;> rfl
  have hpl : isBpmLine (playlistLine label files.length) = false := by rfl
  have hsep : isBpmLine sepLine = false := by rfl
  have hnil : isBpmLine [] = false := by rfl
  unfold reportLines
  rw [List.countP_append, List.countP_append, List.countP_append, List.countP_append]
  rw [countP_bpm_flat readTag, countP_bpm_numMap]
  simp [List.countP_cons, hhead, hpl, hsep, hnil, List.enumFrom_length]

/-! ## C1 -/

/-- C1 (code_bug evidence): parsing the documented input shape
`X | playlist: Y` does *not* yield search terms `X`: because the raw
query contains the substring `playlist:`, the bare segment branch
(tools.py line 50) is skipped and the search terms stay empty, while the
label is still taken.  The docstring (tools.py lines 14-17) and the
registered tool description promise that this shape supplies terms `X`. -/
theorem c1_bare_segment_dropped :
    parseQuery tNow "jazz | playlist: Night".data =
      { searchTerms := [], playlistLabel := "Night".data } := by decide

/-! ## C2 -/

theorem parseSegment_snd (q : Str) (st : Str × Str) (part0 : Str) :
    (parseSegment q st part0).2 = st.2 ∨
    ("playlist:".data.isPrefixOf (lower (pyStrip part0)) = true ∧
      (parseSegment q st part0).2 = pyStrip ((pyStrip part0).drop 9)) := by
  unfold parseSegment
  dsimp only
  split
  · exact Or.inl rfl
  · split
    · exact Or.inr ⟨by assumption, rfl⟩
    · split
      · split
        · exact Or.inl rfl
        · exact Or.inl rfl
      · exact Or.inl rfl

theorem foldl_parseSegment_label (q : Str) :
    ∀ (parts : List Str) (init : Str × Str), init.2 ≠ [] →
      (∀ part ∈ parts, "playlist:".data.isPrefixOf (lower (pyStrip part)) = true →
        pyStrip ((pyStrip part).drop 9) ≠ []) →
      (parts.foldl (parseSegment q) init).2 ≠ []
  | [], _, h, _ => h
  | p :: ps, init, h, hall => by
    rw [List.foldl_cons]
    apply foldl_parseSegment_label q ps
    · rcases parseSegment_snd q init p with h' | ⟨hp, h'⟩
      · rw [h']; exact h
      · rw [h']; exact hall p (by simp) hp
    · intro part hm hpre
      exact hall part (List.mem_cons_of_mem _ hm) hpre

theorem default_label_ne_nil (now : Timestamp) :
    "Playlist_".data ++ fmtTimestamp now ≠ [] := by
  intro h
  have h2 := congrArg List.length h
  rw [List.length_append, List.length_nil] at h2
  have h9 : ("Playlist_".data).length = 9 := by decide
  omega

/-- C2 (counterexample): the parser can return an *empty* playlist label:
a `playlist:` segment whose remainder trims to nothing overwrites the
non-empty default with the empty string. -/
theorem c2_empty_label_counterexample :
    (parseQuery tNow "x | playlist:".data).playlistLabel = [] := by decide

/-- C2 (amended): parsing is total (the parser is a Lean function, so it
terminates on every input), and the returned playlist label is non-empty
whenever every `playlist:`-prefixed segment of the wrapper-stripped query
carries a non-empty trimmed label — in particular whenever the caller
supplies no `playlist:` segment at all, via the non-empty
`Playlist_<timestamp>` default. -/
theorem c2_label_ne_nil (now : Timestamp) (query : Str)
    (h : ∀ part ∈ (stripToolWrapper query).splitOn '|',
      "playlist:".data.isPrefixOf (lower (pyStrip part)) = true →
      pyStrip ((pyStrip part).drop 9) ≠ []) :
    (parseQuery now query).playlistLabel ≠ [] := by
  unfold parseQuery
  simp only []
  split
  · exact foldl_parseSegment_label _ _ _ (default_label_ne_nil now) h
  · exact default_label_ne_nil now

/-! ## C3 -/

/-- The list of search words matched by a file's lower-cased name. -/
def matchedWords (ws : List Str) (p : Str) : List Str :=
  ws.filter (fun w => isSubstr w (lower (basename p)))

/-- The claim's relevance score, following the spec's words (§3,
glossary): the number of *distinct* search words that are substrings of
the lower-cased file name.  To be compared with the code's
`relevanceScore`, which counts every occurrence in the whitespace-split
word list, so a duplicated query word is counted several times. -/
def specDistinctScore (ws : List Str) (p : Str) : Nat :=
  (matchedWords ws p).dedup.length

theorem relevanceScore_eq_length_matched (ws : List Str) (p : Str) :
    relevanceScore ws p = (matchedWords ws p).length := rfl

theorem mem_insertDesc (key : Str → Nat) (x : Str) (ys : List Str) (z : Str) :
    z ∈ insertDesc key x ys ↔ z = x ∨ z ∈ ys := by
  induction ys with
  | nil => simp [insertDesc]
  | cons y t ih =>
    unfold insertDesc
    split
    · rw [List.mem_cons, ih, List.mem_cons]
      tauto
    · exact List.mem_cons

theorem pairwise_insertDesc (key : Str → Nat) (x : Str) (ys : List Str)
    (h : ys.Pairwise (fun a b => key b ≤ key a)) :
    (insertDesc key x ys).Pairwise (fun a b => key b ≤ key a) := by
  induction ys with
  | nil => simp [insertDesc]
  | cons y t ih =>
    rw [List.pairwise_cons] at h
    unfold insertDesc
    split
    · rename_i hlt
      rw [List.pairwise_cons]
      refine ⟨?_, ih h.2⟩
      intro z hz
      rcases (mem_insertDesc key x t z).mp hz with rfl | hzt
      · exact Nat.le_of_lt hlt
      · exact h.1 z hzt
    · rename_i hge
      rw [List.pairwise_cons]
      refine ⟨?_, List.pairwise_cons.mpr h⟩
      intro z hz
      rcases List.mem_cons.mp hz with rfl | hzt
      · exact Nat.le_of_not_lt hge
      · exact Nat.le_trans (h.1 z hzt) (Nat.le_of_not_lt hge)

theorem sortDesc_pairwise (key : Str → Nat) (l : List Str) :
    (sortDesc key l).Pairwise (fun a b => key b ≤ key a) := by
  induction l with
  | nil => simp [sortDesc]
  | cons x t ih => exact pairwise_insertDesc key x _ ih

theorem filter_insertDesc (key : Str → Nat) (s : Nat) (x : Str) (ys : List Str) :
    (insertDesc key x ys).filter (fun p => key p == s) =
      if key x == s then x :: ys.filter (fun p => key p == s)
      else ys.filter (fun p => key p == s) := by
  induction ys with
  | nil =>
    unfold insertDesc
    rw [List.filter_cons, List.filter_nil]
  | cons y t ih =>
    unfold insertDesc
    split
    · rename_i hlt
      rw [List.filter_cons, ih, List.filter_cons]
      by_cases hx : (key x == s) = true
      · by_cases hy : (key y == s) = true
        · exfalso
          have hx' : key x = s := by simpa using hx
          have hy' : key y = s := by simpa using hy
          omega
        · simp [hx, hy]
      · by_cases hy : (key y == s) = true
        · simp [hx, hy]
        · simp [hx, hy]
    · rw [List.filter_cons]

theorem sortDesc_filter_eq (key : Str → Nat) (s : Nat) (l : List Str) :
    (sortDesc key l).filter (fun p => key p == s) = l.filter (fun p => key p == s) := by
  induction l with
  | nil => rfl
  | cons x t ih =>
    show (insertDesc key x (sortDesc key t)).filter _ = _
    rw [filter_insertDesc, ih, List.filter_cons]

theorem length_filter_mono {p q : Str → Bool} :
    ∀ l : List Str, (∀ a ∈ l, p a = true → q a = true) →
      (l.filter p).length ≤ (l.filter q).length := by
  intro l
  induction l with
  | nil => intro _; simp
  | cons a t ih =>
    intro h
    have ht := ih (fun b hb => h b (List.mem_cons_of_mem a hb))
    by_cases hpa : p a = true
    · have hqa := h a (List.mem_cons_self a t) hpa
      simp only [List.filter_cons, hpa, hqa, if_true, List.length_cons]
      omega
    · by_cases hqa : q a = true
      · simp only [List.filter_cons, hpa, hqa, if_true, Bool.false_eq_true, ite_false, List.length_cons]
        omega
      · simp only [List.filter_cons, hpa, hqa, Bool.false_eq_true, ite_false]
        omega

theorem length_filter_lt_of_extra {p q : Str → Bool} :
    ∀ l : List Str, (∀ a ∈ l, p a = true → q a = true) →
      ∀ x ∈ l, q x = true → p x = false →
      (l.filter p).length < (l.filter q).length := by
  intro l
  induction l with
  | nil => intro _ x hx; cases hx
  | cons a t ih =>
    intro h x hx hqx hpx
    have hsub := fun b hb => h b (List.mem_cons_of_mem a hb)
    rcases List.mem_cons.mp hx with rfl | hxt
    · have hm := length_filter_mono t hsub
      simp only [List.filter_cons, hpx, hqx, if_true, Bool.false_eq_true, ite_false, List.length_cons]
      omega
    · have ht := ih hsub x hxt hqx hpx
      by_cases hpa : p a = true
      · have hqa := h a (List.mem_cons_self a t) hpa
        simp only [List.filter_cons, hpa, hqa, if_true, List.length_cons]
        omega
      · by_cases hqa : q a = true
        · simp only [List.filter_cons, hpa, hqa, if_true, Bool.false_eq_true, ite_false, List.length_cons]
          omega
        · simp only [List.filter_cons, hpa, hqa, Bool.false_eq_true, ite_false]
          omega

/-- C3 (counterexample): the claim orders by the number of *distinct*
matched search words, but the code's score counts duplicates in the
split word list.  On query `jazz jazz rock` with discovery order
`[b rock.mp3, a jazz.mp3]` both files match exactly one distinct word,
so the claim's stable-sort requirement demands the discovery order; the
code scores `a jazz.mp3` as 2 (the duplicated word counted twice) and
ranks it first, reordering equal-distinct-score entries. -/
theorem c3_distinct_score_counterexample :
    specDistinctScore (searchWords "jazz jazz rock".data) "/d/b rock.mp3".data = 1 ∧
    specDistinctScore (searchWords "jazz jazz rock".data) "/d/a jazz.mp3".data = 1 ∧
    relevanceScore (searchWords "jazz jazz rock".data) "/d/a jazz.mp3".data = 2 ∧
    rankedFiles "jazz jazz rock".data ["/d/b rock.mp3".data, "/d/a jazz.mp3".data]
      = ["/d/a jazz.mp3".data, "/d/b rock.mp3".data] ∧
    rankedFiles "jazz jazz rock".data ["/d/b rock.mp3".data, "/d/a jazz.mp3".data]
      ≠ ["/d/b rock.mp3".data, "/d/a jazz.mp3".data] := by
  refine ⟨?_, ?_, ?_, ?_, ?_⟩ <;> decide

/-- C3 (amended): the kept entries are ordered by the *code's* relevance
score — the number of lower-cased, whitespace-split search words,
counted with multiplicity, that are substrings of the lower-cased file
name — in descending order (pairwise); entries of equal code-score keep
their discovery order (the sort is stable: filtering the output at any
score gives exactly the filtered input, in order); and if entry A
matches a strict superset of the search words matched by entry B then
A's score is strictly greater — hence at least B's — and A is ranked
strictly before B. -/
theorem c3_ranking_order (terms : Str) (files : List Str) (hterms : terms ≠ []) :
    ((rankedFiles terms files).Pairwise (fun a b =>
        relevanceScore (searchWords terms) b ≤ relevanceScore (searchWords terms) a))
    ∧ (∀ s : Nat,
        (rankedFiles terms files).filter
            (fun p => relevanceScore (searchWords terms) p == s) =
          (matchingFiles (searchWords terms) files).filter
            (fun p => relevanceScore (searchWords terms) p == s))
    ∧ (∀ i j : Fin (rankedFiles terms files).length,
        (∀ w ∈ matchedWords (searchWords terms) ((rankedFiles terms files).get j),
            w ∈ matchedWords (searchWords terms) ((rankedFiles terms files).get i)) →
        (∃ w ∈ matchedWords (searchWords terms) ((rankedFiles terms files).get i),
            w ∉ matchedWords (searchWords terms) ((rankedFiles terms files).get j)) →
        relevanceScore (searchWords terms) ((rankedFiles terms files).get j) <
            relevanceScore (searchWords terms) ((rankedFiles terms files).get i)
          ∧ (i : Nat) < (j : Nat)) := by
  have hpw : (rankedFiles terms files).Pairwise (fun a b =>
      relevanceScore (searchWords terms) b ≤ relevanceScore (searchWords terms) a) :=
    sortDesc_pairwise _ _
  refine ⟨hpw, fun s => sortDesc_filter_eq _ s _, ?_⟩
  set ws := searchWords terms with hws
  generalize hg : rankedFiles terms files = out at hpw ⊢
  intro i j hsub hextra
  obtain ⟨w, hwA, hwB⟩ := hextra
  have hlt : relevanceScore ws (out.get j) < relevanceScore ws (out.get i) := by
    rw [relevanceScore_eq_length_matched, relevanceScore_eq_length_matched]
    apply length_filter_lt_of_extra ws
    · intro a ha hpa
      have : a ∈ matchedWords ws (out.get i) :=
        hsub a (List.mem_filter.mpr ⟨ha, hpa⟩)
      exact (List.mem_filter.mp this).2
    · exact (List.mem_filter.mp hwA).1
    · exact (List.mem_filter.mp hwA).2
    · rw [Bool.eq_false_iff]
      intro hcon
      exact hwB (List.mem_filter.mpr ⟨(List.mem_filter.mp hwA).1, hcon⟩)
  refine ⟨hlt, ?_⟩
  by_contra hij
  have hji : (j : Nat) ≤ (i : Nat) := Nat.le_of_not_lt hij
  rcases Nat.eq_or_lt_of_le hji with heq | hlt2
  · have : i = j := Fin.ext heq.symm
    subst this
    exact hwB hwA
  · have := List.pairwise_iff_get.mp hpw j i hlt2
    omega

/-- Witness for `c3_ranking_order` at a concrete input. -/
theorem c3_ranking_order_witness :
    "jazz piano".data ≠ [] ∧
    (((rankedFiles "jazz piano".data ["/d/a.mp3".data]).Pairwise (fun a b =>
        relevanceScore (searchWords "jazz piano".data) b ≤
          relevanceScore (searchWords "jazz piano".data) a))
    ∧ (∀ s : Nat,
        (rankedFiles "jazz piano".data ["/d/a.mp3".data]).filter
            (fun p => relevanceScore (searchWords "jazz piano".data) p == s) =
          (matchingFiles (searchWords "jazz piano".data) ["/d/a.mp3".data]).filter
            (fun p => relevanceScore (searchWords "jazz piano".data) p == s))
    ∧ (∀ i j : Fin (rankedFiles "jazz piano".data ["/d/a.mp3".data]).length,
        (∀ w ∈ matchedWords (searchWords "jazz piano".data)
            ((rankedFiles "jazz piano".data ["/d/a.mp3".data]).get j),
            w ∈ matchedWords (searchWords "jazz piano".data)
              ((rankedFiles "jazz piano".data ["/d/a.mp3".data]).get i)) →
        (∃ w ∈ matchedWords (searchWords "jazz piano".data)
            ((rankedFiles "jazz piano".data ["/d/a.mp3".data]).get i),
            w ∉ matchedWords (searchWords "jazz piano".data)
              ((rankedFiles "jazz piano".data ["/d/a.mp3".data]).get j)) →
        relevanceScore (searchWords "jazz piano".data)
            ((rankedFiles "jazz piano".data ["/d/a.mp3".data]).get j) <
            relevanceScore (searchWords "jazz piano".data)
              ((rankedFiles "jazz piano".data ["/d/a.mp3".data]).get i)
          ∧ (i : Nat) < (j : Nat))) :=
  ⟨by decide, c3_ranking_order "jazz piano".data ["/d/a.mp3".data] (by decide)⟩

/-! ## C4 -/

/-- C4: with non-empty parsed search terms, an enumerated file is kept by
the loose-match filter iff its lower-cased name contains at least one of
the lower-cased, whitespace-split search words as a substring (logical OR
across the words); in particular a file whose name contains none of the
words is not kept. -/
theorem c4_loose_match (terms : Str) (fs : FS) (hterms : terms ≠ []) (p : Str) :
    p ∈ matchingFiles (searchWords terms) (globFiles fs "*.mp3".data) ↔
      p ∈ globFiles fs "*.mp3".data ∧
      ∃ w ∈ searchWords terms, isSubstr w (lower (basename p)) = true := by
  simp [matchingFiles, List.mem_filter, List.any_eq_true]

/-- Witness for `c4_loose_match` at a concrete input. -/
theorem c4_loose_match_witness :
    "jazz guitar".data ≠ [] ∧
    ("/d/a jazz.mp3".data ∈
        matchingFiles (searchWords "jazz guitar".data)
          (globFiles ⟨true, true, ["/d/a jazz.mp3".data, "/d/rock.mp3".data]⟩ "*.mp3".data) ↔
      "/d/a jazz.mp3".data ∈
        globFiles ⟨true, true, ["/d/a jazz.mp3".data, "/d/rock.mp3".data]⟩ "*.mp3".data ∧
      ∃ w ∈ searchWords "jazz guitar".data,
        isSubstr w (lower (basename "/d/a jazz.mp3".data)) = true) :=
  ⟨by decide, c4_loose_match "jazz guitar".data _ (by decide) _⟩

/-! ## C5 -/

theorem isBpmLine_notFound (musicDir : Str) : isBpmLine (notFoundMsg musicDir) = false := rfl

theorem isBpmLine_noResults_fst (terms : Str) :
    isBpmLine ("❌ No MP3 files found matching '".data ++ terms ++ "'.".data) = false := rfl

/-- C5: the search never reports more than 20 entries: the selected list
is capped at 20 for every parsed request and filesystem state, the full
report never contains more than 20 per-track metadata lines, and the
manifest-writing variant's selection is capped the same way. -/
theorem c5_result_cap (musicDir : Str) (now : Timestamp) (fs : FS)
    (readTag : TagReader) (query terms : Str) (allMp3 : List Str) :
    (selectFiles terms allMp3).length ≤ 20 ∧
    (searchReportLines musicDir now fs readTag query).countP isBpmLine ≤ 20 ∧
    ((globFiles fs (MainVariant.searchPattern terms)).take 20).length ≤ 20 := by
  refine ⟨?_, ?_, ?_⟩
  · unfold selectFiles
    rw [List.length_take]
    omega
  · unfold searchReportLines
    dsimp only
    split
    · simp [List.countP_cons, isBpmLine_notFound]
    · split
      · rw [countP_bpm_reportLines]
        unfold selectFiles
        rw [List.length_take]
        omega
      · rw [List.countP_cons, List.countP_cons, List.countP_nil, isBpmLine_noResults_fst]
        decide
  · rw [List.length_take]
    omega

/-! ## C10 -/

/-- C10: in every report with a non-empty result set, a single count
N = number of selected entries appears in the header line and in the
playlist-summary line; the metadata listing and the playlist re-listing
enumerate exactly the selected entries, numbered 1 through N in the same
(selection) order in both listings; and the metadata listing holds
exactly N per-track metadata lines. -/
theorem c10_count_consistency (musicDir : Str) (now : Timestamp) (fs : FS)
    (readTag : TagReader) (query : Str) (files : List Str)
    (hroot : fs.rootExists = true)
    (hfiles : files = selectFiles (parseQuery now query).searchTerms
        (globFiles fs "*.mp3".data))
    (hne : files ≠ []) :
    searchReportLines musicDir now fs readTag query =
      [headerLine (parseQuery now query).searchTerms files.length, []]
      ++ (List.enumFrom 1 files).flatMap
          (fun ip => [numLine ip.1 ip.2, metaLine readTag ip.2])
      ++ [[], playlistLine (parseQuery now query).playlistLabel files.length, sepLine]
      ++ (List.enumFrom 1 files).map (fun ip => numLine ip.1 ip.2)
      ++ [sepLine]
    ∧ (searchReportLines musicDir now fs readTag query).countP isBpmLine = files.length
    ∧ (List.enumFrom 1 files).map Prod.fst = List.range' 1 files.length
    ∧ (List.enumFrom 1 files).map Prod.snd = files := by
  have hL : searchReportLines musicDir now fs readTag query =
      reportLines readTag (parseQuery now query).searchTerms
        (parseQuery now query).playlistLabel files := by
    unfold searchReportLines
    dsimp only
    rw [hroot]
    simp only [Bool.not_true, if_neg (by simp : ¬ (false = true))]
    rw [← hfiles]
    have : files.isEmpty = false := by simp [hne]
    rw [this]
    simp
  refine ⟨?_, ?_, List.enumFrom_map_fst 1 files, List.enumFrom_map_snd 1 files⟩
  · rw [hL]; rfl
  · rw [hL, countP_bpm_reportLines]

/-- Witness for `c10_count_consistency` at a concrete input. -/
theorem c10_count_consistency_witness :
    (FS.mk true true ["/d/a jazz.mp3".data]).rootExists = true ∧
    ["/d/a jazz.mp3".data] = selectFiles (parseQuery tNow "jazz".data).searchTerms
        (globFiles ⟨true, true, ["/d/a jazz.mp3".data]⟩ "*.mp3".data) ∧
    (["/d/a jazz.mp3".data] : List Str) ≠ [] ∧
    ((searchReportLines "/d".data tNow ⟨true, true, ["/d/a jazz.mp3".data]⟩
        (fun _ => none) "jazz".data).countP isBpmLine = (["/d/a jazz.mp3".data] : List Str).length) := by
  refine ⟨by decide, by decide, by decide, ?_⟩
  exact (c10_count_consistency "/d".data tNow ⟨true, true, ["/d/a jazz.mp3".data]⟩
    (fun _ => none) "jazz".data ["/d/a jazz.mp3".data] (by decide) (by decide) (by decide)).2.1

/-! ## C8 -/

/-- `isSubstr` decides the contiguous-substring relation. -/
theorem isSubstr_iff (pat : Str) : ∀ s : Str, isSubstr pat s = true ↔ pat <:+: s := by
  intro s
  induction s with
  | nil =>
    show pat.isEmpty = true ↔ _
    rw [List.isEmpty_iff, List.infix_nil]
  | cons c t ih =>
    show (pat.isPrefixOf (c :: t) || isSubstr pat t) = true ↔ _
    rw [Bool.or_eq_true, List.isPrefixOf_iff_prefix, ih, List.infix_cons_iff]

theorem dropWhile_eq_self_of_head {p : Char → Bool} (l : Str)
    (h : ∀ c, l.head? = some c → p c = false) : l.dropWhile p = l := by
  cases l with
  | nil => rfl
  | cons a t =>
    rw [List.dropWhile_cons, h a rfl]
    simp

theorem trimBoth_eq_self {p : Char → Bool} (t : Str)
    (h1 : ∀ c, t.head? = some c → p c = false)
    (h2 : ∀ c, t.getLast? = some c → p c = false) :
    ((t.dropWhile p).reverse.dropWhile p).reverse = t := by
  rw [dropWhile_eq_self_of_head t h1]
  rw [dropWhile_eq_self_of_head t.reverse
    (fun c hc => h2 c (by rwa [List.head?_reverse] at hc))]
  exact List.reverse_reverse t

theorem stripQuotes_wrap (t : Str) (hne : t ≠ [])
    (hq1 : ∀ c, t.head? = some c → isQuote c = false)
    (hq2 : ∀ c, t.getLast? = some c → isQuote c = false) :
    stripQuotes ('\'' :: (t ++ ['\''])) = t := by
  unfold stripQuotes
  rw [List.dropWhile_cons]
  have : isQuote '\'' = true := rfl
  rw [this]
  simp only [if_true]
  have hfront : (t ++ ['\'']).dropWhile isQuote = t ++ ['\''] := by
    apply dropWhile_eq_self_of_head
    intro c hc
    rcases t with _ | ⟨a, t'⟩
    · exact absurd rfl hne
    · rw [List.cons_append, List.head?_cons, Option.some.injEq] at hc
      exact hc ▸ hq1 a rfl
  rw [hfront, List.reverse_append]
  show ((['\''] ++ t.reverse).dropWhile isQuote).reverse = t
  rw [List.singleton_append, List.dropWhile_cons, this]
  simp only [if_true]
  rw [dropWhile_eq_self_of_head t.reverse
    (fun c hc => hq2 c (by rwa [List.head?_reverse] at hc))]
  exact List.reverse_reverse t

theorem stripToolWrapper_wrap (t : Str) (hne : t ≠ [])
    (hq1 : ∀ c, t.head? = some c → isQuote c = false)
    (hq2 : ∀ c, t.getLast? = some c → isQuote c = false) :
    stripToolWrapper ("MP3Search('".data ++ t ++ "')".data) = t := by
  have hA : ("MP3Search('".data ++ t ++ "')".data)
      = "MP3Search('".data ++ (t ++ "')".data) := by
    rw [List.append_assoc]
  have hg1 : isSubstr "MP3Search(".data ("MP3Search('".data ++ t ++ "')".data) = true := by
    rw [isSubstr_iff, hA]
    exact ((by decide : "MP3Search(".data <+: "MP3Search('".data).trans
      (List.prefix_append _ _)).isInfix
  have hg2 : isSubstr ")".data ("MP3Search('".data ++ t ++ "')".data) = true := by
    rw [isSubstr_iff]
    have : "MP3Search('".data ++ t ++ "')".data
        = ("MP3Search('".data ++ t ++ ['\'']) ++ [')'] := by
      simp [List.append_assoc]
    rw [this]
    exact (List.suffix_append _ _).isInfix
  have hmemA : '(' ∈ "MP3Search('".data := by decide
  have hfind : pyFind '(' ("MP3Search('".data ++ t ++ "')".data) = 9 := by
    unfold pyFind
    rw [if_pos (by
      rw [hA]
      exact List.mem_append_left _ hmemA)]
    rw [List.indexOf_append_of_mem (List.mem_append_left t hmemA),
      List.indexOf_append_of_mem hmemA]
    decide
  have hlen : ("MP3Search('".data ++ t ++ "')".data).length = t.length + 13 := by
    rw [List.length_append, List.length_append]
    have h1 : ("MP3Search('".data).length = 11 := by decide
    have h2 : ("')".data).length = 2 := by decide
    omega
  have hrfind : pyRFind ')' ("MP3Search('".data ++ t ++ "')".data)
      = (t.length : Int) + 12 := by
    unfold pyRFind
    rw [if_pos (by
      apply List.mem_append_right
      decide)]
    have hrev : ("MP3Search('".data ++ t ++ "')".data).reverse
        = ')' :: ('\'' :: ("MP3Search('".data ++ t).reverse) := by
      rw [List.reverse_append]
      rfl
    rw [hrev, List.indexOf_cons_self, hlen]
    omega
  unfold stripToolWrapper
  dsimp only
  rw [hg1, hg2]
  simp only [Bool.and_self, if_true]
  rw [hfind, hrfind]
  have hc : (decide ((9 : Int) + 1 > 0) && decide ((t.length : Int) + 12 > (9 : Int) + 1))
      = true := by
    rw [Bool.and_eq_true, decide_eq_true_eq, decide_eq_true_eq]
    omega
  rw [hc, if_pos rfl]
  have htoN : ((t.length : Int) + 12).toNat = t.length + 12 := by omega
  have htoS : ((9 : Int) + 1).toNat = 10 := by omega
  rw [htoN, htoS]
  have htake : ("MP3Search('".data ++ t ++ "')".data).take (t.length + 12)
      = ("MP3Search('".data ++ t) ++ ['\''] := by
    rw [List.take_append_eq_append_take]
    rw [List.take_of_length_le (by
      rw [List.length_append]
      have : ("MP3Search('".data).length = 11 := by decide
      omega)]
    congr 1
    have h1 : ("MP3Search('".data ++ t).length = 11 + t.length := by
      rw [List.length_append]
      have : ("MP3Search('".data).length = 11 := by decide
      omega
    rw [h1]
    have h2 : t.length + 12 - (11 + t.length) = 1 := by omega
    rw [h2]
    rfl
  rw [htake]
  have hdrop : (("MP3Search('".data ++ t) ++ ['\'']).drop 10 = '\'' :: (t ++ ['\'']) := by
    rw [List.drop_append_eq_append_drop, List.drop_append_eq_append_drop]
    have h1 : ("MP3Search('".data).drop 10 = ['\''] := by decide
    have h2 : 10 - ("MP3Search('".data).length = 0 := by decide
    have h3 : ("MP3Search('".data ++ t).length = 11 + t.length := by
      rw [List.length_append]
      have : ("MP3Search('".data).length = 11 := by decide
      omega
    rw [h1, h2, h3, List.drop_zero]
    have h4 : 10 - (11 + t.length) = 0 := by omega
    rw [h4, List.drop_zero]
    simp
  rw [hdrop]
  exact stripQuotes_wrap t hne hq1 hq2

/-- C8 fails as stated for wrappers other than the tool's own name: the
stripping (tools.py line 34) fires only when the literal `MP3Search(`
occurs, so `Foo('jazz piano')` is parsed verbatim, not as
`jazz piano`. -/
theorem c8_other_wrapper_counterexample :
    (parseQuery tNow "Foo('jazz piano')".data).searchTerms = "Foo('jazz piano')".data ∧
    (parseQuery tNow "Foo('jazz piano')".data).searchTerms ≠ "jazz piano".data :=
  ⟨by decide, by decide⟩

/-- C8 amended (restricted to the `MP3Search(...)` wrapper): for every
inner text `t` (non-empty, not starting or ending with a quote or
whitespace character, containing no `|`, and not starting with the
`search:` prefix), parsing `MP3Search('t')` strips the wrapper —
extracting between the first `(` and last `)` and trimming the quotes —
and yields search terms `t` with the default playlist label.  Wrappers
with any other name are left unstripped. -/
theorem c8_wrapper_strip (now : Timestamp) (t : Str)
    (hne : t ≠ [])
    (hq1 : ∀ c, t.head? = some c → isQuote c = false)
    (hq2 : ∀ c, t.getLast? = some c → isQuote c = false)
    (hs1 : ∀ c, t.head? = some c → isPySpace c = false)
    (hs2 : ∀ c, t.getLast? = some c → isPySpace c = false)
    (hpipe : '|' ∉ t)
    (hpre : "search:".data.isPrefixOf (lower t) = false) :
    parseQuery now ("MP3Search('".data ++ t ++ "')".data) =
      { searchTerms := t, playlistLabel := "Playlist_".data ++ fmtTimestamp now } := by
  unfold parseQuery
  rw [stripToolWrapper_wrap t hne hq1 hq2]
  dsimp only
  have hnopipe : isSubstr "|".data t = false := by
    rw [Bool.eq_false_iff]
    intro hcon
    rw [isSubstr_iff] at hcon
    exact hpipe (hcon.subset (by decide))
  rw [hnopipe]
  simp only [Bool.false_eq_true, if_false]
  have hstrip : pyStrip t = t := trimBoth_eq_self t hs1 hs2
  rw [hstrip, hpre]
  simp

/-- Witness for `c8_wrapper_strip` at the spec's example input. -/
theorem c8_wrapper_strip_witness :
    ("jazz piano".data ≠ [] ∧ '|' ∉ "jazz piano".data ∧
      "search:".data.isPrefixOf (lower "jazz piano".data) = false) ∧
    parseQuery tNow ("MP3Search('".data ++ "jazz piano".data ++ "')".data) =
      { searchTerms := "jazz piano".data,
        playlistLabel := "Playlist_".data ++ fmtTimestamp tNow } :=
  ⟨⟨by decide, by decide, by decide⟩,
    c8_wrapper_strip tNow "jazz piano".data (by decide) (by decide) (by decide)
      (by decide) (by decide) (by decide) (by decide)⟩

/-! ## C9 -/

/-- C9 fails as stated: writing the playlist manifest is not an
enabled/disabled configuration of one routine.  The repository has two
hardwired variants: the registered tool (tools.py) never writes, and the
main.py variant — which also differs in matching policy — always writes
when its result set is non-empty.  On the same input the two variants
even produce different reports while neither writes: the file
`piano jazz.mp3` loose-matches the query `jazz piano` in the default
variant but fails the main variant's `*jazz*piano*.mp3` glob. -/
theorem c9_not_configurable_counterexample :
    search_mp3_files_writes "/m".data tNow ⟨true, true, ["/m/piano jazz.mp3".data]⟩
        (fun _ => none) "jazz piano".data = [] ∧
    (MainVariant.search_mp3_files "/m".data tNow ⟨true, true, ["/m/piano jazz.mp3".data]⟩
        (fun _ => none) none "jazz piano".data).2 = [] ∧
    search_mp3_files "/m".data tNow ⟨true, true, ["/m/piano jazz.mp3".data]⟩
        (fun _ => none) "jazz piano".data ≠
      (MainVariant.search_mp3_files "/m".data tNow ⟨true, true, ["/m/piano jazz.mp3".data]⟩
        (fun _ => none) none "jazz piano".data).1 ∧
    (MainVariant.search_mp3_files "/m".data tNow ⟨true, true, ["/m/a jazz.mp3".data]⟩
        (fun _ => none) none "jazz".data).2 ≠ [] :=
  ⟨rfl, by decide, by decide, by decide⟩

/-- C9 amended: the default routine (the registered tool) emits the
playlist listing inline — the playlist-summary line is part of its
report whenever the result set is non-empty — and performs no filesystem
write on any input; the manifest-writing behavior lives only in the
separate main.py routine, which writes the manifest whenever its result
set is non-empty and the write does not raise.  The choice between the
two is made per call site, not by a configuration flag. -/
theorem c9_write_modes (musicDir : Str) (now : Timestamp) (fs : FS)
    (readTag : TagReader) (query : Str) (writeErr : Option Str) :
    search_mp3_files_writes musicDir now fs readTag query = [] ∧
    (fs.rootExists = true →
      ∀ files, files = selectFiles (parseQuery now query).searchTerms
          (globFiles fs "*.mp3".data) →
        files ≠ [] →
        playlistLine (parseQuery now query).playlistLabel files.length ∈
          searchReportLines musicDir now fs readTag query) ∧
    (fs.rootExists = true →
      (globFiles fs (MainVariant.searchPattern
          (MainVariant.parseQuery now query).searchTerms)).take 20 ≠ [] →
      writeErr = none →
      (MainVariant.search_mp3_files musicDir now fs readTag writeErr query).2 ≠ []) := by
  refine ⟨rfl, ?_, ?_⟩
  · intro hroot files hfiles hne
    have hL : searchReportLines musicDir now fs readTag query =
        reportLines readTag (parseQuery now query).searchTerms
          (parseQuery now query).playlistLabel files := by
      unfold searchReportLines
      dsimp only
      rw [hroot]
      simp only [Bool.not_true, if_neg (by simp : ¬ (false = true))]
      rw [← hfiles]
      have : files.isEmpty = false := by simp [hne]
      rw [this]
      simp
    rw [hL]
    unfold reportLines
    simp [List.mem_append]
  · intro hroot hsel hw
    subst hw
    unfold MainVariant.search_mp3_files
    dsimp only
    rw [hroot]
    simp only [Bool.not_true, if_neg (by simp : ¬ (false = true))]
    have : ((globFiles fs (MainVariant.searchPattern
        (MainVariant.parseQuery now query).searchTerms)).take 20).isEmpty = false := by
      simp [hsel]
    rw [this]
    simp

/-- Witness for `c9_write_modes` at concrete inputs. -/
theorem c9_write_modes_witness :
    search_mp3_files_writes "/m".data tNow ⟨true, true, ["/m/a jazz.mp3".data]⟩
        (fun _ => none) "jazz".data = [] ∧
    playlistLine (parseQuery tNow "jazz".data).playlistLabel
        (selectFiles (parseQuery tNow "jazz".data).searchTerms
          (globFiles ⟨true, true, ["/m/a jazz.mp3".data]⟩ "*.mp3".data)).length ∈
      searchReportLines "/m".data tNow ⟨true, true, ["/m/a jazz.mp3".data]⟩
        (fun _ => none) "jazz".data ∧
    (MainVariant.search_mp3_files "/m".data tNow ⟨true, true, ["/m/a jazz.mp3".data]⟩
        (fun _ => none) none "jazz".data).2 ≠ [] := by
  refine ⟨(c9_write_modes "/m".data tNow ⟨true, true, ["/m/a jazz.mp3".data]⟩
      (fun _ => none) "jazz".data none).1, ?_, ?_⟩
  · exact (c9_write_modes "/m".data tNow ⟨true, true, ["/m/a jazz.mp3".data]⟩
      (fun _ => none) "jazz".data none).2.1 (by decide) _ rfl (by decide)
  · exact (c9_write_modes "/m".data tNow ⟨true, true, ["/m/a jazz.mp3".data]⟩
      (fun _ => none) "jazz".data none).2.2 (by decide) (by decide) rfl

/-! ## C6 -/

/-- C6 fails as stated for a root that exists but is not a directory: the
existence check (tools.py line 63, `os.path.exists`) passes, the code
proceeds to enumerate (finding nothing under a non-directory), and the
ordinary no-matches report is returned — not a directory-not-found
report. -/
theorem c6_nondir_counterexample :
    search_mp3_files "/home/u/Desktop".data tNow
        ⟨true, false, ["/home/u/Desktop/a jazz.mp3".data]⟩ (fun _ => none) "jazz".data
      = noResultsMsg "jazz".data ∧
    noResultsMsg "jazz".data ≠ notFoundMsg "/home/u/Desktop".data :=
  ⟨by decide, by decide⟩

/-- C6 amended (restricted to a root that does not exist): the search
returns the directory-not-found report — a fixed message independent of
the directory contents and of the tag reader, so no enumeration, ranking
or metadata read influences it — with zero entries, and the function is
total so no exception reaches the caller. -/
theorem c6_missing_root (musicDir : Str) (now : Timestamp) (fs : FS)
    (readTag : TagReader) (query : Str) (h : fs.rootExists = false) :
    search_mp3_files musicDir now fs readTag query = notFoundMsg musicDir ∧
    searchReportLines musicDir now fs readTag query = [notFoundMsg musicDir] ∧
    (searchReportLines musicDir now fs readTag query).countP isBpmLine = 0 := by
  refine ⟨?_, ?_, ?_⟩ <;>
    simp [search_mp3_files, searchReportLines, h, List.countP_cons, isBpmLine_notFound]

/-- Witness for `c6_missing_root` at a concrete input. -/
theorem c6_missing_root_witness :
    (FS.mk false false ["/x/a.mp3".data]).rootExists = false ∧
    search_mp3_files "/x".data tNow ⟨false, false, ["/x/a.mp3".data]⟩
        (fun _ => none) "jazz".data = notFoundMsg "/x".data :=
  ⟨by decide,
    (c6_missing_root "/x".data tNow ⟨false, false, ["/x/a.mp3".data]⟩
      (fun _ => none) "jazz".data (by decide)).1⟩

/-! ## C7 -/

/-- C7: when the embedded-tag read of an entry fails, both metadata
fields fall back to the sentinel "Unknown", the entry's metadata line
renders as `   BPM: Unknown | Genre: Unknown`, and the failure is fully
swallowed: the rendering functions are total (no exception surfaces) and
every selected entry is still rendered — one metadata line per entry for
any tag reader whatsoever. -/
theorem c7_metadata_fallback (readTag : TagReader) (p : Str)
    (h : readTag p = none) :
    entryMeta readTag p = ("Unknown".data, "Unknown".data) ∧
    metaLine readTag p = "   BPM: Unknown | Genre: Unknown".data ∧
    (∀ terms label files,
      (reportLines readTag terms label files).countP isBpmLine = files.length) := by
  have h1 : entryMeta readTag p = ("Unknown".data, "Unknown".data) := by
    unfold entryMeta
    rw [h]
  refine ⟨h1, ?_, fun terms label files => countP_bpm_reportLines readTag terms label files⟩
  unfold metaLine
  rw [h1]
  decide

/-- Witness for `c7_metadata_fallback` at a concrete input. -/
theorem c7_metadata_fallback_witness :
    ((fun _ => none : TagReader) "/d/x.mp3".data = none) ∧
    metaLine (fun _ => none) "/d/x.mp3".data = "   BPM: Unknown | Genre: Unknown".data :=
  ⟨rfl, (c7_metadata_fallback (fun _ => none) "/d/x.mp3".data rfl).2.1⟩

/-- Witness for `c2_label_ne_nil` at a concrete input. -/
theorem c2_label_ne_nil_witness :
    (∀ part ∈ (stripToolWrapper "jazz | playlist: Night".data).splitOn '|',
      "playlist:".data.isPrefixOf (lower (pyStrip part)) = true →
      pyStrip ((pyStrip part).drop 9) ≠ []) ∧
    (parseQuery tNow "jazz | playlist: Night".data).playlistLabel ≠ [] :=
  ⟨by decide, c2_label_ne_nil tNow "jazz | playlist: Night".data (by decide)⟩

end AIDJ
